import Mathlib

/-!
Verification of the PSELF container core (floatboat repository).

This file gives a shallow embedding, in Lean 4, of the PSELF container
runner and its collaborators:

* `runner.rs`  — header/section decoding, hash verification, platform
  selection and the first-match extraction loop (`Runner` namespace);
* `format.rs`  — the duplicate codec with an encoder (`Format` namespace);
* `kdv.rs`     — the fingerprint store verifier (`Kdv` namespace);
* `permission_manager.rs` — the password-gated permission manager
  (`Perm` namespace).

Bytes are modelled as `Nat` (values below 256), byte buffers as
`List Nat`, Rust `String` values as their UTF-8 byte lists, fallible
Rust functions as `Except String`, and a Rust panic as `Option.none`.
SHA-256 (the `sha2` crate) is implemented executably over byte lists.
-/

set_option maxRecDepth 1000000

/-! ### Byte helpers -/

instance {ε α : Type} [DecidableEq ε] [DecidableEq α] : DecidableEq (Except ε α) := fun x y =>
  match x, y with
  | .ok a, .ok b =>
    if h : a = b then isTrue (by rw [h]) else isFalse (by intro hc; cases hc; exact h rfl)
  | .ok _, .error _ => isFalse (by intro hc; cases hc)
  | .error _, .ok _ => isFalse (by intro hc; cases hc)
  | .error e, .error f =>
    if h : e = f then isTrue (by rw [h]) else isFalse (by intro hc; cases hc; exact h rfl)

/-- Big-endian byte encoding of a natural number into `n` bytes
(models `u32::to_be_bytes` and the 64-bit length field of SHA-256). -/
def toBytesBE : Nat → Nat → List Nat
  | 0, _ => []
  | n + 1, x => toBytesBE n (x / 256) ++ [x % 256]

/-- Big-endian byte decoding (models `u32::from_be_bytes`). -/
def fromBytesBE (l : List Nat) : Nat := l.foldl (fun a b => a * 256 + b) 0

/-! ### SHA-256 over byte lists (model of the sha2 crate digest) -/

def rotr32 (x n : Nat) : Nat := ((x >>> n) ||| (x <<< (32 - n))) % 2 ^ 32

def smallSigma0 (x : Nat) : Nat := rotr32 x 7 ^^^ rotr32 x 18 ^^^ (x >>> 3)

def smallSigma1 (x : Nat) : Nat := rotr32 x 17 ^^^ rotr32 x 19 ^^^ (x >>> 10)

def bigSigma0 (x : Nat) : Nat := rotr32 x 2 ^^^ rotr32 x 13 ^^^ rotr32 x 22

def bigSigma1 (x : Nat) : Nat := rotr32 x 6 ^^^ rotr32 x 11 ^^^ rotr32 x 25

def chFun (x y z : Nat) : Nat := (x &&& y) ^^^ ((x ^^^ 0xffffffff) &&& z)

def majFun (x y z : Nat) : Nat := (x &&& y) ^^^ (x &&& z) ^^^ (y &&& z)

/-- The 64 round constants of SHA-256 (FIPS 180-4), in decimal. -/
def sha256K : List Nat :=
  [1116352408, 1899447441, 3049323471, 3921009573, 961987163, 1508970993,
   2453635748, 2870763221, 3624381080, 310598401, 607225278, 1426881987,
   1925078388, 2162078206, 2614888103, 3248222580, 3835390401, 4022224774,
   264347078, 604807628, 770255983, 1249150122, 1555081692, 1996064986,
   2554220882, 2821834349, 2952996808, 3210313671, 3336571891, 3584528711,
   113926993, 338241895, 666307205, 773529912, 1294757372, 1396182291,
   1695183700, 1986661051, 2177026350, 2456956037, 2730485921, 2820302411,
   3259730800, 3345764771, 3516065817, 3600352804, 4094571909, 275423344,
   430227734, 506948616, 659060556, 883997877, 958139571, 1322822218,
   1537002063, 1747873779, 1955562222, 2024104815, 2227730452, 2361852424,
   2428436474, 2756734187, 3204031479, 3329325298]

/-- The 8 initial hash words of SHA-256 (FIPS 180-4), in decimal. -/
def sha256H0 : List Nat :=
  [1779033703, 3144134277, 1013904242, 2773480762,
   1359893119, 2600822924, 528734635, 1541459225]

def sha256pad (msg : List Nat) : List Nat :=
  msg ++ [0x80] ++ List.replicate ((119 - msg.length % 64) % 64) 0 ++ toBytesBE 8 (msg.length * 8)

def toBlocks (l : List Nat) : List (List Nat) :=
  (List.range (l.length / 64)).map (fun i => (l.drop (64 * i)).take 64)

def bytesToWordsBE (l : List Nat) : List Nat :=
  (List.range (l.length / 4)).map (fun i => fromBytesBE ((l.drop (4 * i)).take 4))

def extendW (ws : List Nat) : List Nat :=
  (List.range 48).foldl
    (fun ws _ =>
      let t := ws.length
      ws ++ [(smallSigma1 (ws.getD (t - 2) 0) + ws.getD (t - 7) 0 +
              smallSigma0 (ws.getD (t - 15) 0) + ws.getD (t - 16) 0) % 2 ^ 32])
    ws

def sha256Round (st : List Nat) (kw : Nat × Nat) : List Nat :=
  match st with
  | [a, b, c, d, e, f, g, h] =>
    let t1 := (h + bigSigma1 e + chFun e f g + kw.1 + kw.2) % 2 ^ 32
    let t2 := (bigSigma0 a + majFun a b c) % 2 ^ 32
    [(t1 + t2) % 2 ^ 32, a, b, c, (d + t1) % 2 ^ 32, e, f, g]
  | _ => st

def compressBlock (h : List Nat) (block : List Nat) : List Nat :=
  let ws := extendW (bytesToWordsBE block)
  let st := (sha256K.zip ws).foldl sha256Round h
  (h.zip st).map (fun p => (p.1 + p.2) % 2 ^ 32)

/-- SHA-256 digest of a byte list, as 32 bytes.  Models
`Sha256::digest` / the `update` + `finalize` sequence from the sha2
crate used by `runner.rs`, `format.rs` and `kdv.rs`. -/
def sha256 (msg : List Nat) : List Nat :=
  (((toBlocks (sha256pad msg)).foldl compressBlock sha256H0).map (toBytesBE 4)).flatten

/-! ### UTF-8 validity (success condition of Rust String::from_utf8) -/

/-- One step of the standard UTF-8 acceptance automaton.  The state is
`none` once the input is rejected, otherwise `some (k, lo, hi)`: `k`
continuation bytes are still expected and the next byte must lie in
`lo..hi` when `k > 0`.  The tightened first-continuation ranges rule
out overlong forms, surrogates and code points above U+10FFFF, exactly
as Rust UTF-8 validation does. -/
def utf8Step (st : Option (Nat × Nat × Nat)) (b : Nat) : Option (Nat × Nat × Nat) :=
  match st with
  | none => none
  | some (0, _, _) =>
    if b ≤ 0x7f then some (0, 0, 0)
    else if 0xc2 ≤ b ∧ b ≤ 0xdf then some (1, 0x80, 0xbf)
    else if b = 0xe0 then some (2, 0xa0, 0xbf)
    else if (0xe1 ≤ b ∧ b ≤ 0xec) ∨ (0xee ≤ b ∧ b ≤ 0xef) then some (2, 0x80, 0xbf)
    else if b = 0xed then some (2, 0x80, 0x9f)
    else if b = 0xf0 then some (3, 0x90, 0xbf)
    else if 0xf1 ≤ b ∧ b ≤ 0xf3 then some (3, 0x80, 0xbf)
    else if b = 0xf4 then some (3, 0x80, 0x8f)
    else none
  | some (k + 1, lo, hi) =>
    if lo ≤ b ∧ b ≤ hi then some (k, 0x80, 0xbf) else none

/-- Executable UTF-8 validity check on a byte list; true exactly when
Rust `String::from_utf8` / `str::from_utf8` succeeds on those bytes. -/
def utf8Valid (l : List Nat) : Bool :=
  match l.foldl utf8Step (some (0, 0, 0)) with
  | some (0, _, _) => true
  | _ => false

/-! ### Shared data model (runner.rs and format.rs agree on these) -/

def MAGIC : Nat := 0x5053454C

def SECTION_SIZE : Nat := 73

inductive SectionType where
  | Elf
  | Pe
  | Macho
deriving DecidableEq, Repr

def SectionType.from_u8 (v : Nat) : Option SectionType :=
  match v with
  | 0 => some SectionType.Elf
  | 1 => some SectionType.Pe
  | 2 => some SectionType.Macho
  | _ => none

/-- The numeric value of a section type (the Rust `as u8` cast on the
enum with discriminants Elf = 0, Pe = 1, Macho = 2). -/
def SectionType.toU8 : SectionType → Nat
  | SectionType.Elf => 0
  | SectionType.Pe => 1
  | SectionType.Macho => 2

structure PselfHeader where
  version : Nat
  section_count : Nat
deriving DecidableEq, Repr

/-- A decoded section record.  `name` is the UTF-8 byte list of the
Rust `String`; `offset` and `length` are the `u32` fields widened to
`Nat` (`usize` in runner.rs after the cast). -/
structure SectionEntry where
  section_type : SectionType
  name : List Nat
  offset : Nat
  length : Nat
  hash : List Nat
deriving DecidableEq, Repr

namespace Runner

/-- Header decoder from runner.rs (`PselfHeader::from_bytes`). -/
def PselfHeader.from_bytes (bytes : List Nat) : Except String PselfHeader :=
  if bytes.length < 12 then .error "Header bytes too short"
  else if fromBytesBE (bytes.take 4) ≠ MAGIC then .error "Invalid PSELF magic"
  else .ok { version := fromBytesBE ((bytes.drop 4).take 4),
             section_count := fromBytesBE ((bytes.drop 8).take 4) }

/-- Section decoder from runner.rs (`SectionEntry::from_bytes`): the
name is the 32-byte field with every NUL byte filtered out, then
checked for UTF-8 validity. -/
def SectionEntry.from_bytes (bytes : List Nat) : Except String SectionEntry :=
  if bytes.length < SECTION_SIZE then .error "SectionEntry bytes too short"
  else
    match SectionType.from_u8 (bytes.getD 0 0) with
    | none => .error "Invalid section type"
    | some st =>
      if utf8Valid (((bytes.drop 1).take 32).filter (fun b => b != 0)) then
        .ok { section_type := st,
              name := ((bytes.drop 1).take 32).filter (fun b => b != 0),
              offset := fromBytesBE ((bytes.drop 33).take 4),
              length := fromBytesBE ((bytes.drop 37).take 4),
              hash := (bytes.drop 41).take 32 }
      else .error "Invalid UTF-8 in section name"

/-- Hash check from runner.rs (`SectionEntry::verify_hash`). -/
def SectionEntry.verify_hash (e : SectionEntry) (content : List Nat) : Bool :=
  sha256 content == e.hash

structure PselfRunner where
  data : List Nat
  header : PselfHeader
  sections : List SectionEntry
deriving DecidableEq, Repr

/-- The section-table loop of `PselfRunner::new`: `n` records remain,
the next has index `i`; a record that fails to decode propagates its
error (the `?` operator in the source). -/
def parseSections (data : List Nat) : Nat → Nat → Except String (List SectionEntry)
  | 0, _ => .ok []
  | n + 1, i =>
    let off := 12 + i * SECTION_SIZE
    if off + SECTION_SIZE > data.length then .error "Not enough data for sections"
    else
      match SectionEntry.from_bytes ((data.drop off).take SECTION_SIZE) with
      | .error e => .error e
      | .ok sec =>
        match parseSections data n (i + 1) with
        | .error e => .error e
        | .ok secs => .ok (sec :: secs)

/-- `PselfRunner::new`.  The source slices `&data[0..12]` before any
length guard; on a buffer shorter than 12 bytes that slice panics, which
the model renders as `none`.  `some` carries the `Result` value. -/
def PselfRunner.new (data : List Nat) : Option (Except String PselfRunner) :=
  if 12 > data.length then none
  else
    match PselfHeader.from_bytes ((data.drop 0).take 12) with
    | .error e => some (.error e)
    | .ok header =>
      match parseSections data header.section_count 0 with
      | .error e => some (.error e)
      | .ok sections => some (.ok { data := data, header := header, sections := sections })

/-- Platform compatibility from runner.rs (`PselfRunner::is_compatible`). -/
def is_compatible (section_type : SectionType) (os : String) : Bool :=
  if os = "linux" then section_type == SectionType.Elf
  else if os = "windows" then section_type == SectionType.Pe
  else if os = "macos" then section_type == SectionType.Macho
  else false

/-- Output suffix mapping of `PselfRunner::load_section`. -/
def extFor : SectionType → String
  | SectionType.Elf => ".elf.pself"
  | SectionType.Pe => ".exe.pself"
  | SectionType.Macho => ".mach.pself"

/-- Name of the artifact `load_section` writes (`format!` with prefix
output_). -/
def output_file_name (section_type : SectionType) : String :=
  "output_" ++ extFor section_type

/-- The scanning loop of `PselfRunner::run` over the remaining section
records.  `Except.ok` carries the write performed by `load_section`
(file name and content); the source returns `Ok(())` right after that
single write, so the loop stops at the first match. -/
def PselfRunner.runFrom (r : PselfRunner) (os : String) :
    List SectionEntry → Except String (String × List Nat)
  | [] => .error "[ERROR] No compatible section found for this OS."
  | sec :: rest =>
    if sec.offset + sec.length > r.data.length then r.runFrom os rest
    else
      let content := (r.data.drop sec.offset).take sec.length
      if SectionEntry.verify_hash sec content then
        if is_compatible sec.section_type os then
          .ok (output_file_name sec.section_type, content)
        else r.runFrom os rest
      else r.runFrom os rest

/-- `PselfRunner::run`, with the detected OS passed explicitly
(`detect_os` is a compile-time `cfg!` dispatch in the source). -/
def PselfRunner.run (r : PselfRunner) (os : String) : Except String (String × List Nat) :=
  r.runFrom os r.sections

/-- The conjunction of the three per-record checks of the scanning
loop: bounds, hash, platform compatibility. -/
def passes (data : List Nat) (os : String) (s : SectionEntry) : Bool :=
  decide (s.offset + s.length ≤ data.length) &&
  SectionEntry.verify_hash s ((data.drop s.offset).take s.length) &&
  is_compatible s.section_type os

end Runner

namespace Format

/-- Section encoder from format.rs (`SectionEntry::to_bytes`): type
byte, then the name padded to 32 bytes with zero bytes inserted before
the name bytes, then offset, length and hash. -/
def SectionEntry.to_bytes (e : SectionEntry) : Except String (List Nat) :=
  if e.name.length > 32 then .error "Section name too long, max 32 bytes"
  else .ok (SectionType.toU8 e.section_type ::
    (List.replicate (32 - e.name.length) 0 ++ e.name ++
     toBytesBE 4 e.offset ++ toBytesBE 4 e.length ++ e.hash))

/-- Section decoder from format.rs (`SectionEntry::from_bytes`): the
32-byte name field is checked for UTF-8 validity as a whole, then only
a leading run of NUL characters is trimmed (`trim_start_matches`). -/
def SectionEntry.from_bytes (bytes : List Nat) : Except String SectionEntry :=
  if bytes.length < 73 then .error "SectionEntry bytes too short"
  else
    match SectionType.from_u8 (bytes.getD 0 0) with
    | none => .error "Invalid section type"
    | some st =>
      if utf8Valid ((bytes.drop 1).take 32) then
        .ok { section_type := st,
              name := ((bytes.drop 1).take 32).dropWhile (fun b => b == 0),
              offset := fromBytesBE ((bytes.drop 33).take 4),
              length := fromBytesBE ((bytes.drop 37).take 4),
              hash := (bytes.drop 41).take 32 }
      else .error "Invalid UTF-8 in section name"

end Format

namespace Kdv

/-- The fingerprint store of kdv.rs; the `HashMap` is modelled as an
association list with unique keys, written by `insertA` and read by
`lookupA`. -/
structure KdvVerifier where
  fingerprints : List (String × List Nat)
deriving DecidableEq, Repr

/-- Association-list lookup (model of `HashMap::get`). -/
def lookupA {α : Type} : List (String × α) → String → Option α
  | [], _ => none
  | (k, v) :: rest, key => if k = key then some v else lookupA rest key

/-- `KdvVerifier::compute_hash`. -/
def compute_hash (data : List Nat) : List Nat := sha256 data

/-- `KdvVerifier::verify`.  The returned pair is the boolean handed to
the caller together with the line the function prints, which is the
only place the three branches differ observably. -/
def KdvVerifier.verify (v : KdvVerifier) (name : String) (content : List Nat) :
    Bool × String :=
  let current_hash := compute_hash content
  match lookupA v.fingerprints name with
  | none => (false, "[ERROR] Unknown section: " ++ name)
  | some expected_hash =>
    if expected_hash ≠ current_hash then
      (false, "[ALERT] Integrity violation in section: " ++ name)
    else
      (true, "[OK] Section verified: " ++ name)

end Kdv

namespace Perm

/-- Association-list insert-or-replace (model of `HashMap::insert` and
of writing through `entry().or_insert`). -/
def insertA {α : Type} : List (String × α) → String → α → List (String × α)
  | [], key, v => [(key, v)]
  | (k, w) :: rest, key, v =>
    if k = key then (key, v) :: rest else (k, w) :: insertA rest key v

def lookupA {α : Type} : List (String × α) → String → Option α
  | [], _ => none
  | (k, v) :: rest, key => if k = key then some v else lookupA rest key

/-- The two maps guarded by the mutexes of `PermissionManager`. -/
structure PermissionManager where
  permissions : List (String × Bool)
  password_attempts : List (String × Nat)
deriving DecidableEq, Repr

def PermissionManager.new : PermissionManager :=
  { permissions := [], password_attempts := [] }

/-- `PermissionManager::request_permission`.  `isRoot` is the result of
the ambient `is_root_user()` check (an `id -u` subprocess), passed in
explicitly.  Returns the boolean result and the updated manager state. -/
def request_permission (pm : PermissionManager) (isRoot : Bool)
    (user password : String) : Bool × PermissionManager :=
  if !isRoot then (false, pm)
  else
    let count := (lookupA pm.password_attempts user).getD 0
    if count ≥ 2 then
      (false, { pm with permissions := insertA pm.permissions user false })
    else if password = "s3cretpass" then
      (true, { permissions := insertA pm.permissions user true,
               password_attempts := insertA pm.password_attempts user 0 })
    else
      (false, { pm with password_attempts := insertA pm.password_attempts user (count + 1) })

/-- The failed-attempt counter the manager holds for a user. -/
def attemptsOf (pm : PermissionManager) (user : String) : Nat :=
  (lookupA pm.password_attempts user).getD 0

/-- Run a sequence of `request_permission` calls, threading the manager
state; each call is a triple (root status, user, password).  Returns
the results in call order. -/
def runCalls (pm : PermissionManager) : List (Bool × String × String) → List Bool
  | [] => []
  | (r, u, p) :: rest =>
    let out := request_permission pm r u p
    out.1 :: runCalls out.2 rest

end Perm

/-! ### Concrete inputs for witnesses and counterexamples -/

/-- Container for the first-match scenario: record 0 is a Pe section
with a valid hash, record 1 an Elf section with a valid hash; payloads
sit after the table at absolute offsets 158 and 161. -/
def c1rec0 : SectionEntry :=
  { section_type := SectionType.Pe, name := [], offset := 158, length := 3,
    hash := sha256 [1, 2, 3] }

def c1rec1 : SectionEntry :=
  { section_type := SectionType.Elf, name := [], offset := 161, length := 3,
    hash := sha256 [4, 5, 6] }

def c1rec0bytes : List Nat :=
  1 :: (List.replicate 32 0 ++ toBytesBE 4 158 ++ toBytesBE 4 3 ++ sha256 [1, 2, 3])

def c1rec1bytes : List Nat :=
  0 :: (List.replicate 32 0 ++ toBytesBE 4 161 ++ toBytesBE 4 3 ++ sha256 [4, 5, 6])

def c1data : List Nat :=
  toBytesBE 4 MAGIC ++ toBytesBE 4 1 ++ toBytesBE 4 2 ++
  c1rec0bytes ++ c1rec1bytes ++ ([1, 2, 3] ++ [4, 5, 6])

def c1runner : Runner.PselfRunner :=
  { data := c1data, header := { version := 1, section_count := 2 },
    sections := [c1rec0, c1rec1] }

/-- Container whose record 0 has the unrecognized type byte 5 while
record 1 is a well-formed Elf section with a valid hash. -/
def c2rec1bytes : List Nat :=
  0 :: (List.replicate 32 0 ++ toBytesBE 4 158 ++ toBytesBE 4 3 ++ sha256 [7, 8, 9])

def c2data : List Nat :=
  toBytesBE 4 MAGIC ++ toBytesBE 4 1 ++ toBytesBE 4 2 ++
  (5 :: List.replicate 72 0) ++ c2rec1bytes ++ [7, 8, 9]

/-- A 73-byte record whose name field is 65, NUL, 66 followed by 29
NUL bytes: the NUL between 65 and 66 is interior, not leading. -/
def c3bytes : List Nat :=
  0 :: ((65 :: 0 :: 66 :: List.replicate 29 0) ++
        toBytesBE 4 0 ++ toBytesBE 4 0 ++ List.replicate 32 0)

def c3entry : SectionEntry :=
  { section_type := SectionType.Elf, name := [65, 66], offset := 0, length := 0,
    hash := List.replicate 32 0 }

/-- A platform-compatible Elf section whose stored hash (all zeros) is
not the digest of its payload. -/
def c4rec : SectionEntry :=
  { section_type := SectionType.Elf, name := [], offset := 0, length := 3,
    hash := List.replicate 32 0 }

def c4runner : Runner.PselfRunner :=
  { data := [1, 2, 3], header := { version := 1, section_count := 1 },
    sections := [c4rec] }

/-- Record 0 references bytes 2..7 of a 3-byte buffer (out of range);
record 1 is a valid, compatible Elf section. -/
def c5rec0 : SectionEntry :=
  { section_type := SectionType.Elf, name := [], offset := 2, length := 5,
    hash := List.replicate 32 0 }

def c5rec1 : SectionEntry :=
  { section_type := SectionType.Elf, name := [], offset := 0, length := 3,
    hash := sha256 [10, 11, 12] }

def c5runner : Runner.PselfRunner :=
  { data := [10, 11, 12], header := { version := 1, section_count := 2 },
    sections := [c5rec0, c5rec1] }

/-- A container whose only section is a valid Pe section: on linux no
record is compatible. -/
def c6rec : SectionEntry :=
  { section_type := SectionType.Pe, name := [], offset := 0, length := 3,
    hash := sha256 [1, 2, 3] }

def c6runner : Runner.PselfRunner :=
  { data := [1, 2, 3], header := { version := 1, section_count := 1 },
    sections := [c6rec] }

/-- The section entry built by the format.rs example `main`: name
"text" (bytes 116 101 120 116), offset 0, length 5, hash of the
payload 1 2 3 4 5. -/
def c7entry : SectionEntry :=
  { section_type := SectionType.Elf, name := [116, 101, 120, 116], offset := 0,
    length := 5, hash := sha256 [1, 2, 3, 4, 5] }

def c8verifier : Kdv.KdvVerifier :=
  { fingerprints := [("known.bin", sha256 [1, 2, 3])] }

/-- A manager state in which user bob has already accumulated two
failed attempts. -/
def c9pm : Perm.PermissionManager :=
  { permissions := [], password_attempts := [("bob", 2)] }

def c9calls : List (Bool × String × String) :=
  [(true, "bob", "s3cretpass"), (false, "bob", "s3cretpass"),
   (true, "alice", "s3cretpass"), (true, "bob", "wrongpass")]


/-! ### Helper lemmas about the scanning loop -/

namespace Runner

theorem runFrom_skip (r : PselfRunner) (os : String) (s : SectionEntry)
    (rest : List SectionEntry) (h : passes r.data os s = false) :
    r.runFrom os (s :: rest) = r.runFrom os rest := by
  rw [passes] at h
  by_cases hb : s.offset + s.length > r.data.length
  · rw [PselfRunner.runFrom]
    simp [hb]
  · have hle : s.offset + s.length ≤ r.data.length := Nat.le_of_not_lt hb
    simp only [decide_eq_true hle, Bool.true_and] at h
    rw [PselfRunner.runFrom]
    simp only [hb, if_false]
    cases hv : SectionEntry.verify_hash s ((r.data.drop s.offset).take s.length) with
    | false => simp [hv]
    | true =>
      have hc : is_compatible s.section_type os = false := by
        rw [hv] at h
        simpa using h
      simp [hv, hc]

theorem runFrom_select (r : PselfRunner) (os : String) (s : SectionEntry)
    (rest : List SectionEntry) (h : passes r.data os s = true) :
    r.runFrom os (s :: rest) =
      .ok (output_file_name s.section_type, (r.data.drop s.offset).take s.length) := by
  rw [passes] at h
  simp only [Bool.and_eq_true, decide_eq_true_eq] at h
  obtain ⟨⟨hle, hv⟩, hc⟩ := h
  have hb : ¬ (s.offset + s.length > r.data.length) := by omega
  rw [PselfRunner.runFrom]
  simp [hb, hv, hc]

theorem runFrom_exhausted (r : PselfRunner) (os : String) (l : List SectionEntry)
    (h : ∀ s ∈ l, passes r.data os s = false) :
    r.runFrom os l = .error "[ERROR] No compatible section found for this OS." := by
  induction l with
  | nil => rfl
  | cons s rest ih =>
    rw [runFrom_skip r os s rest (h s (by simp))]
    exact ih (fun t ht => h t (by simp [ht]))

end Runner

/-! ### Claim theorems -/

/-- C1: in a container run, the first section record in file order that
passes the bounds check, the hash check and the platform-compatibility
check is the one extracted, and scanning stops there: the result does
not depend on the records after it.  The witness instantiates this with
a container whose record 0 is Pe with a valid hash and record 1 is Elf
with a valid hash, run with os linux: record 1 is selected. -/
theorem run_first_match (r : Runner.PselfRunner) (os : String)
    (pre post : List SectionEntry) (s : SectionEntry)
    (hsecs : r.sections = pre ++ s :: post)
    (hpre : ∀ t ∈ pre, Runner.passes r.data os t = false)
    (hs : Runner.passes r.data os s = true) :
    r.run os =
      .ok (Runner.output_file_name s.section_type, (r.data.drop s.offset).take s.length) := by
  suffices key : ∀ l : List SectionEntry, (∀ t ∈ l, Runner.passes r.data os t = false) →
      r.runFrom os (l ++ s :: post) =
        .ok (Runner.output_file_name s.section_type, (r.data.drop s.offset).take s.length) by
    rw [Runner.PselfRunner.run, hsecs]
    exact key pre hpre
  intro l
  induction l with
  | nil => intro _; exact Runner.runFrom_select r os s post hs
  | cons t ts ih =>
    intro hl
    rw [List.cons_append, Runner.runFrom_skip r os t (ts ++ s :: post) (hl t (by simp))]
    exact ih (fun u hu => hl u (by simp [hu]))

theorem run_first_match_witness :
    Runner.PselfRunner.new c1data = some (.ok c1runner) ∧
    c1runner.run "linux" =
      .ok (Runner.output_file_name c1rec1.section_type,
           (c1runner.data.drop c1rec1.offset).take c1rec1.length) ∧
    Runner.output_file_name c1rec1.section_type = "output_.elf.pself" ∧
    (c1runner.data.drop c1rec1.offset).take c1rec1.length = [4, 5, 6] :=
  ⟨by decide,
   run_first_match c1runner "linux" [c1rec0] [] c1rec1 rfl (by decide) (by decide),
   by decide, by decide⟩

/-- C4: a section whose stored hash is not the SHA-256 digest of its
referenced payload is skipped, and the run continues with the remaining
records, whatever the section type (in particular when it is
compatible with the host platform). -/
theorem run_skips_hash_mismatch (r : Runner.PselfRunner) (os : String)
    (s : SectionEntry) (rest : List SectionEntry)
    (hsecs : r.sections = s :: rest)
    (hb : s.offset + s.length ≤ r.data.length)
    (hv : Runner.SectionEntry.verify_hash s ((r.data.drop s.offset).take s.length) = false) :
    r.run os = r.runFrom os rest := by
  rw [Runner.PselfRunner.run, hsecs, Runner.PselfRunner.runFrom]
  have hb' : ¬ (s.offset + s.length > r.data.length) := by omega
  simp [hb', hv]

theorem run_skips_hash_mismatch_witness :
    c4runner.run "linux" = c4runner.runFrom "linux" [] ∧
    c4runner.run "linux" = .error "[ERROR] No compatible section found for this OS." ∧
    Runner.is_compatible c4rec.section_type "linux" = true :=
  ⟨run_skips_hash_mismatch c4runner "linux" c4rec [] rfl (by decide) (by decide),
   by decide, by decide⟩

/-- C5: a section whose offset plus length exceeds the buffer length is
skipped without aborting the scan: the run result is the scan of the
remaining records, and no payload slice of the offending record is
consulted. -/
theorem run_skips_out_of_range (r : Runner.PselfRunner) (os : String)
    (s : SectionEntry) (rest : List SectionEntry)
    (hsecs : r.sections = s :: rest)
    (hb : s.offset + s.length > r.data.length) :
    r.run os = r.runFrom os rest := by
  rw [Runner.PselfRunner.run, hsecs, Runner.PselfRunner.runFrom]
  simp [hb]

theorem run_skips_out_of_range_witness :
    c5runner.run "linux" = c5runner.runFrom "linux" [c5rec1] ∧
    c5runner.run "linux" = .ok ("output_.elf.pself", [10, 11, 12]) :=
  ⟨run_skips_out_of_range c5runner "linux" c5rec0 [c5rec1] rfl (by decide),
   by decide⟩

/-- C6: when no section record passes all three checks, the run ends
with the NoCompatibleSection error of the source (its exact message
string) and produces no write: the result carries no file name and no
content. -/
theorem run_no_compatible_section (r : Runner.PselfRunner) (os : String)
    (h : ∀ s ∈ r.sections, Runner.passes r.data os s = false) :
    r.run os = .error "[ERROR] No compatible section found for this OS." := by
  rw [Runner.PselfRunner.run]
  exact Runner.runFrom_exhausted r os r.sections h

theorem run_no_compatible_section_witness :
    c6runner.run "linux" = .error "[ERROR] No compatible section found for this OS." :=
  run_no_compatible_section c6runner "linux" (by decide)

/-- C10: on any buffer shorter than 12 bytes, `PselfRunner::new` slices
`data[0..12]` before any length guard and therefore panics (modelled as
`none`); in particular it never returns the TooShort error of the
header decoder, whose length guard is unreachable from this entry
point. -/
theorem new_short_buffer_panics (data : List Nat) (h : data.length < 12) :
    Runner.PselfRunner.new data = none ∧
    Runner.PselfRunner.new data ≠ some (.error "Header bytes too short") := by
  have h12 : 12 > data.length := h
  rw [Runner.PselfRunner.new]
  constructor
  · simp [h12]
  · simp [h12]

theorem new_short_buffer_panics_witness :
    Runner.PselfRunner.new [80, 83, 69, 76] = none ∧
    Runner.PselfRunner.new [80, 83, 69, 76] ≠ some (.error "Header bytes too short") :=
  new_short_buffer_panics [80, 83, 69, 76] (by decide)

/-- C3: whenever the runner.rs section decoder succeeds, the name of
the resulting entry is the 32-byte name field with every NUL byte
removed, wherever it occurs — not only a leading run.  The witness
decodes a record whose name field is 65, NUL, 66, NUL...: the interior
NUL is removed as well. -/
theorem from_bytes_strips_all_nuls (bytes : List Nat) (e : SectionEntry)
    (h : Runner.SectionEntry.from_bytes bytes = .ok e) :
    e.name = ((bytes.drop 1).take 32).filter (fun b => b != 0) := by
  rw [Runner.SectionEntry.from_bytes] at h
  split at h
  · exact absurd h (by simp)
  · split at h
    · exact absurd h (by simp)
    · split at h
      · injection h with h
        subst h
        rfl
      · exact absurd h (by simp)

theorem from_bytes_strips_all_nuls_witness :
    Runner.SectionEntry.from_bytes c3bytes = .ok c3entry ∧
    c3entry.name = ((c3bytes.drop 1).take 32).filter (fun b => b != 0) ∧
    c3entry.name = [65, 66] :=
  ⟨by decide, from_bytes_strips_all_nuls c3bytes c3entry (by decide), by decide⟩

/-- C2 (counterexample): a record that fails to decode is not skipped:
on a container whose record 0 has the unrecognized type byte 5 and
whose record 1 is a well-formed Elf section, `PselfRunner::new`
returns the format error itself, so construction is fatal and no
scanning of the remaining records (nor any run) happens. -/
theorem new_aborts_on_bad_section_record :
    Runner.PselfRunner.new c2data = some (.error "Invalid section type") := by decide

/-- C2 (amended): a section record that fails to decode with a format
error is fatal: the table-parsing loop of `PselfRunner::new` propagates
the error of the offending record (the question-mark operator in the
source) instead of skipping it, so container construction fails and
scanning never starts.  Only range and integrity failures during the
later scan are skipped. -/
theorem parse_sections_error_fatal (data : List Nat) (n i : Nat) (e : String)
    (hb : ¬ (12 + i * SECTION_SIZE + SECTION_SIZE > data.length))
    (hd : Runner.SectionEntry.from_bytes
            ((data.drop (12 + i * SECTION_SIZE)).take SECTION_SIZE) = .error e) :
    Runner.parseSections data (n + 1) i = .error e := by
  rw [Runner.parseSections]
  simp only [hb, if_false, hd]

theorem parse_sections_error_fatal_witness :
    Runner.parseSections c2data 2 0 = .error "Invalid section type" :=
  parse_sections_error_fatal c2data 1 0 "Invalid section type" (by decide) (by decide)

/-- C8: a fingerprint-store lookup for a name with no recorded digest
reports the distinct unknown-section outcome: the boolean is false and
the reported line is the unknown-section line, which differs from the
integrity-violation line and from the verified line for the same
name. -/
theorem verify_unknown_section (v : Kdv.KdvVerifier) (name : String) (content : List Nat)
    (h : Kdv.lookupA v.fingerprints name = none) :
    v.verify name content = (false, "[ERROR] Unknown section: " ++ name) ∧
    "[ERROR] Unknown section: " ++ name ≠ "[ALERT] Integrity violation in section: " ++ name ∧
    "[ERROR] Unknown section: " ++ name ≠ "[OK] Section verified: " ++ name := by
  refine ⟨?_, ?_, ?_⟩
  · rw [Kdv.KdvVerifier.verify, h]
  · intro hc
    have hlen := congrArg String.length hc
    rw [String.length_append, String.length_append] at hlen
    have h1 : ("[ERROR] Unknown section: ").length = 25 := rfl
    have h2 : ("[ALERT] Integrity violation in section: ").length = 40 := rfl
    omega
  · intro hc
    have hlen := congrArg String.length hc
    rw [String.length_append, String.length_append] at hlen
    have h1 : ("[ERROR] Unknown section: ").length = 25 := rfl
    have h2 : ("[OK] Section verified: ").length = 23 := rfl
    omega

theorem verify_unknown_section_witness :
    c8verifier.verify "other.bin" [9, 9] = (false, "[ERROR] Unknown section: " ++ "other.bin") ∧
    "[ERROR] Unknown section: " ++ "other.bin" ≠
      "[ALERT] Integrity violation in section: " ++ "other.bin" ∧
    "[ERROR] Unknown section: " ++ "other.bin" ≠ "[OK] Section verified: " ++ "other.bin" :=
  verify_unknown_section c8verifier "other.bin" [9, 9] (by decide)

/-! ### Helper lemmas about the permission manager -/

namespace Perm

theorem lookupA_insertA_ne {α : Type} (l : List (String × α)) (k k2 : String) (v : α)
    (h : k ≠ k2) : lookupA (insertA l k v) k2 = lookupA l k2 := by
  induction l with
  | nil => simp [insertA, lookupA, h]
  | cons p rest ih =>
    obtain ⟨pk, pv⟩ := p
    by_cases hp : pk = k
    · subst hp
      simp [insertA, lookupA, h]
    · simp [insertA, lookupA, hp, ih]

/-- A call by a locked-out user returns false, whatever the password
and root status. -/
theorem request_false_when_locked (pm : PermissionManager) (r : Bool) (user pw : String)
    (h : attemptsOf pm user ≥ 2) : (request_permission pm r user pw).1 = false := by
  cases r with
  | false => rfl
  | true =>
    rw [request_permission]
    rw [attemptsOf] at h
    simp [h, Nat.not_lt.mpr]

/-- No call (by any user, with any password) can lower a counter that
has reached the lockout threshold. -/
theorem attempts_stay_locked (pm : PermissionManager) (r : Bool) (u pw user : String)
    (h : attemptsOf pm user ≥ 2) :
    attemptsOf (request_permission pm r u pw).2 user ≥ 2 := by
  cases r with
  | false => exact h
  | true =>
    rw [request_permission]
    by_cases hcnt : (lookupA pm.password_attempts u).getD 0 ≥ 2
    · simp [hcnt]
      exact h
    · by_cases hu : u = user
      · subst hu
        rw [attemptsOf] at h
        exact absurd h hcnt
      · by_cases hpw : pw = "s3cretpass"
        · simp [hcnt, hpw, attemptsOf, lookupA_insertA_ne pm.password_attempts u user 0 hu]
          rw [attemptsOf] at h
          exact h
        · simp [hcnt, hpw, attemptsOf,
                lookupA_insertA_ne pm.password_attempts u user _ hu]
          rw [attemptsOf] at h
          exact h

end Perm

/-- C9 (counterexample): two failed attempts do not lock a user out
when a successful login sits between them, because a correct password
resets the counter.  Starting from a fresh manager, with root held
throughout, the call sequence wrong, correct, wrong, correct for user
alice returns false, true, false, true: calls 1 and 3 are failed
attempts (wrong password, root precondition satisfied), yet call 4 —
subsequent to both — returns true, not false. -/
theorem lockout_claim_counterexample :
    Perm.runCalls Perm.PermissionManager.new
      [(true, "alice", "wrongpass"), (true, "alice", "s3cretpass"),
       (true, "alice", "wrongpass"), (true, "alice", "s3cretpass")] =
      [false, true, false, true] := by decide

/-- C9 (amended): once the per-username failed-attempt counter has
reached 2 — two failed attempts with no successful attempt in between —
every subsequent call naming that username returns false, regardless of
the password and root status, and interleaved calls by other users do
not unlock it.  (Without that proviso the claim fails: a successful
login between two failures resets the counter, see the
counterexample.) -/
theorem lockout_after_counter (pm : Perm.PermissionManager) (user : String)
    (calls : List (Bool × String × String)) (h : Perm.attemptsOf pm user ≥ 2) :
    ((calls.zip (Perm.runCalls pm calls)).all
      (fun p => !(p.1.2.1 == user) || !p.2)) = true := by
  induction calls generalizing pm with
  | nil => rfl
  | cons c rest ih =>
    obtain ⟨r, u, pw⟩ := c
    rw [Perm.runCalls]
    simp only [List.zip_cons_cons, List.all_cons, Bool.and_eq_true]
    constructor
    · by_cases hu : u = user
      · subst hu
        have hf := Perm.request_false_when_locked pm r u pw h
        simp [hf]
      · simp [hu]
    · exact ih _ (Perm.attempts_stay_locked pm r u pw user h)

theorem lockout_after_counter_witness :
    ((c9calls.zip (Perm.runCalls c9pm c9calls)).all
      (fun p => !(p.1.2.1 == "bob") || !p.2)) = true :=
  lockout_after_counter c9pm "bob" c9calls (by decide)

/-! ### Helper lemmas for the codec round trip -/

theorem except_bind_ok {ε α β : Type} (a : α) (f : α → Except ε β) :
    (Except.ok a : Except ε α).bind f = f a := rfl

theorem toBytesBE_length (n : Nat) : ∀ x : Nat, (toBytesBE n x).length = n := by
  induction n with
  | zero => intro x; rfl
  | succ n ih => intro x; simp [toBytesBE, ih]

theorem fromBytesBE_toBytesBE (x : Nat) (h : x < 2 ^ 32) :
    fromBytesBE (toBytesBE 4 x) = x := by
  have h4 : x < 4294967296 := by omega
  show ((((0 * 256 + x / 256 / 256 / 256 % 256) * 256 + x / 256 / 256 % 256) * 256 +
         x / 256 % 256) * 256 + x % 256) = x
  omega

theorem from_u8_toU8 (st : SectionType) :
    SectionType.from_u8 (SectionType.toU8 st) = some st := by
  cases st <;> rfl

theorem utf8Valid_replicate_zero (k : Nat) (l : List Nat) :
    utf8Valid (List.replicate k 0 ++ l) = utf8Valid l := by
  induction k with
  | zero => rfl
  | succ k ih =>
    rw [List.replicate_succ, List.cons_append]
    have hstep : utf8Valid (0 :: (List.replicate k 0 ++ l)) =
        utf8Valid (List.replicate k 0 ++ l) := rfl
    rw [hstep, ih]

theorem dropWhile_zero_replicate (k : Nat) (l : List Nat) (h : ∀ b ∈ l, b ≠ 0) :
    (List.replicate k 0 ++ l).dropWhile (fun b => b == 0) = l := by
  induction k with
  | zero =>
    simp only [List.replicate, List.nil_append]
    cases l with
    | nil => rfl
    | cons b t =>
      have hb : (b == 0) = false := by
        have hb0 := h b (by simp)
        simpa using hb0
      simp [List.dropWhile_cons, hb]
  | succ k ih =>
    rw [List.replicate_succ, List.cons_append]
    simpa [List.dropWhile_cons] using ih

/-- C7: for every section entry whose name is at most 32 bytes with no
embedded NUL byte — together with the invariants the Rust types already
enforce (the name is a valid UTF-8 string, offset and length are u32
values, the hash is exactly 32 bytes) — decoding the 73-byte encoding
of the entry with the format.rs codec yields the entry unchanged. -/
theorem decode_encode_roundtrip (e : SectionEntry)
    (hlen : e.name.length ≤ 32)
    (hnul : ∀ b ∈ e.name, b ≠ 0)
    (hutf : utf8Valid e.name = true)
    (hoff : e.offset < 2 ^ 32)
    (hlng : e.length < 2 ^ 32)
    (hhash : e.hash.length = 32) :
    (Format.SectionEntry.to_bytes e).bind Format.SectionEntry.from_bytes = .ok e := by
  rw [Format.SectionEntry.to_bytes, if_neg (by omega : ¬ e.name.length > 32), except_bind_ok]
  set A := SectionType.toU8 e.section_type with hA
  set pad := List.replicate (32 - e.name.length) (0 : Nat) with hpad
  set B := toBytesBE 4 e.offset with hB
  set C := toBytesBE 4 e.length with hC
  have hpq : (pad ++ e.name).length = 32 := by
    rw [List.length_append, hpad, List.length_replicate]
    omega
  have hBlen : B.length = 4 := by rw [hB]; exact toBytesBE_length 4 e.offset
  have hClen : C.length = 4 := by rw [hC]; exact toBytesBE_length 4 e.length
  have hbsLen : (A :: (pad ++ e.name ++ B ++ C ++ e.hash)).length = 73 := by
    simp only [List.length_cons, List.length_append, hBlen, hClen, hhash, hpq]
  have hdrop1 : (A :: (pad ++ e.name ++ B ++ C ++ e.hash)).drop 1 =
      (pad ++ e.name) ++ (B ++ (C ++ e.hash)) := by
    rw [show (A :: (pad ++ e.name ++ B ++ C ++ e.hash)) =
          [A] ++ ((pad ++ e.name) ++ (B ++ (C ++ e.hash))) from by simp [List.append_assoc]]
    exact List.drop_left' (by simp)
  have htake32 : ((pad ++ e.name) ++ (B ++ (C ++ e.hash))).take 32 = pad ++ e.name :=
    List.take_left' hpq
  have hdrop33 : (A :: (pad ++ e.name ++ B ++ C ++ e.hash)).drop 33 = B ++ (C ++ e.hash) := by
    rw [show (A :: (pad ++ e.name ++ B ++ C ++ e.hash)) =
          ([A] ++ (pad ++ e.name)) ++ (B ++ (C ++ e.hash)) from by simp [List.append_assoc]]
    exact List.drop_left' (by simp [hpq])
  have htakeB : (B ++ (C ++ e.hash)).take 4 = B := List.take_left' hBlen
  have hdrop37 : (A :: (pad ++ e.name ++ B ++ C ++ e.hash)).drop 37 = C ++ e.hash := by
    rw [show (A :: (pad ++ e.name ++ B ++ C ++ e.hash)) =
          ([A] ++ ((pad ++ e.name) ++ B)) ++ (C ++ e.hash) from by simp [List.append_assoc]]
    exact List.drop_left' (by simp [hpad, hBlen]; omega)
  have htakeC : (C ++ e.hash).take 4 = C := List.take_left' hClen
  have hdrop41 : (A :: (pad ++ e.name ++ B ++ C ++ e.hash)).drop 41 = e.hash := by
    rw [show (A :: (pad ++ e.name ++ B ++ C ++ e.hash)) =
          ([A] ++ (((pad ++ e.name) ++ B) ++ C)) ++ e.hash from by simp [List.append_assoc]]
    exact List.drop_left' (by simp [hpad, hBlen, hClen]; omega)
  have htakeHash : e.hash.take 32 = e.hash := by
    rw [← hhash]
    exact List.take_length e.hash
  rw [Format.SectionEntry.from_bytes]
  rw [if_neg (by rw [hbsLen]; omega)]
  split
  next heq =>
    rw [show (A :: (pad ++ e.name ++ B ++ C ++ e.hash)).getD 0 0 = A from rfl, hA,
        from_u8_toU8] at heq
    exact absurd heq (by simp)
  next st2 heq =>
    rw [show (A :: (pad ++ e.name ++ B ++ C ++ e.hash)).getD 0 0 = A from rfl, hA,
        from_u8_toU8] at heq
    injection heq with h2
    rw [hdrop1, htake32]
    have hvalid : utf8Valid (pad ++ e.name) = true := by
      rw [hpad, utf8Valid_replicate_zero]
      exact hutf
    rw [if_pos hvalid, hdrop33, htakeB, hdrop37, htakeC, hdrop41, htakeHash, hB, hC,
        fromBytesBE_toBytesBE e.offset hoff, fromBytesBE_toBytesBE e.length hlng, hpad,
        dropWhile_zero_replicate _ _ hnul, ← h2]

theorem decode_encode_roundtrip_witness :
    (Format.SectionEntry.to_bytes c7entry).bind Format.SectionEntry.from_bytes = .ok c7entry :=
  decode_encode_roundtrip c7entry (by decide) (by decide) (by decide) (by decide) (by decide)
    (by decide)
